import Mathlib

/-!
Verification of the relay-engine core of `telegram_backup.py`
(`TelegramBackupManager`): content filtering, historical backfill with a
persisted per-source cursor, live dispatch, route resolution and stats.

Shallow embedding conventions: python dicts become association lists over
`Nat` keys, the telethon message object becomes `MessageView` (its duck-typed
media probing resolved to a concrete `MediaKind`), and the fallible
`forward_messages` call becomes an outcome oracle `MessageView → ForwardOutcome`.
-/

namespace TelegramBackup

/-- Concrete media kinds a message may carry: photo, video, document, and
any other media kind (audio, sticker, web preview, ...). The kind is part
of the message data, but the media branch of `should_backup_message`
(lines 275-282) never actually consults it — see `hasattr_photo`. -/
inductive MediaKind
  | photo
  | video
  | document
  | other
deriving DecidableEq, Repr

/-- View of a telethon message as consumed by the relay core: its id,
whether `message.action` is set (service message), and its media content
(`none` when `message.media` is falsy, i.e. a text message). -/
structure MessageView where
  id : Nat
  action : Bool
  media : Option MediaKind
deriving DecidableEq, Repr

/-- Embedding of `hasattr(message, 'photo')` (line 276). On a telethon
`Message`, `photo` is a class-level property present on every instance (it
returns `None` for non-photo media rather than being absent), so the probe
is true for every message whatever its media kind. -/
def hasattr_photo {α : Type} (_m : α) : Bool := true

/-- Embedding of `hasattr(message, 'video')` (line 278); a class-level
property on every telethon `Message`, so always true. -/
def hasattr_video {α : Type} (_m : α) : Bool := true

/-- Embedding of `hasattr(message, 'document')` (line 280); a class-level
property on every telethon `Message`, so always true. -/
def hasattr_document {α : Type} (_m : α) : Bool := true

/-- The five filter flags of `BackupConfig.filters` (lines 62-68). -/
structure FilterConfig where
  media_only : Bool
  photos : Bool
  videos : Bool
  documents : Bool
  text_messages : Bool
deriving DecidableEq, Repr

/-- Embedding of python `any(self.config.filters.values())` (line 267). -/
def FilterConfig.anyActive (f : FilterConfig) : Bool :=
  f.media_only || f.photos || f.videos || f.documents || f.text_messages

/-- The default filter configuration of `BackupConfig.default` (lines 62-68). -/
def FilterConfig.defaults : FilterConfig :=
  { media_only := false, photos := true, videos := true,
    documents := false, text_messages := true }

/-- The all-false filter configuration. -/
def FilterConfig.allFalse : FilterConfig :=
  { media_only := false, photos := false, videos := false,
    documents := false, text_messages := false }

/-- Embedding of `should_backup_message` (lines 259-289), minus the outer
try/except which is modelled separately by `should_backup_message_guarded`.
Follows the source order: service check, the `any(filters.values())` check,
the `media_only` check, the media branch, then `text_messages`. The media
branch guards each flag with a `hasattr` probe that is always true (see
`hasattr_photo`), so it never consults the message's concrete media kind. -/
def should_backup_message (filters : FilterConfig) (m : MessageView) : Bool :=
  if m.action then false
  else if !filters.anyActive then true
  else if filters.media_only && m.media.isNone then false
  else
    match m.media with
    | some _ =>
        if hasattr_photo m && filters.photos then true
        else if hasattr_video m && filters.videos then true
        else if hasattr_document m && filters.documents then true
        else false
    | none => filters.text_messages

/-- A message whose attribute probes may raise: each accessor is `Except`,
modelling an exception escaping from the body of the try block of
`should_backup_message` (lines 261-285). -/
structure MessageProbes where
  id : Nat
  action : Except Unit Bool
  media : Except Unit (Option MediaKind)

/-- The body of the try block of `should_backup_message` (lines 261-285)
over fallible attribute probes: any probe failure propagates as `.error`.
The media branch uses the same always-true `hasattr` probes as
`should_backup_message` (hasattr itself cannot raise). -/
def should_backup_core (filters : FilterConfig) (m : MessageProbes) :
    Except Unit Bool := do
  let a ← m.action
  if a then return false
  else if !filters.anyActive then return true
  else
    let md ← m.media
    if filters.media_only && md.isNone then return false
    else
      match md with
      | some _ =>
          if hasattr_photo m && filters.photos then return true
          else if hasattr_video m && filters.videos then return true
          else if hasattr_document m && filters.documents then return true
          else return false
      | none => return filters.text_messages

/-- Embedding of the whole of `should_backup_message` including its
try/except (lines 287-289): an evaluation failure yields `false`. -/
def should_backup_message_guarded (filters : FilterConfig) (m : MessageProbes) :
    Bool :=
  match should_backup_core filters m with
  | Except.ok b => b
  | Except.error _ => false

/-! Persisted cursor state (`backup_state.json`, a python dict from source
entity id to last forwarded message id) as an association list. -/

/-- Association-list lookup keyed by `Nat` (python `dict` lookup). -/
def assocLookup {β : Type} : List (Nat × β) → Nat → Option β
  | [], _ => none
  | (k', v) :: rest, k => if k' = k then some v else assocLookup rest k

/-- Association-list assignment keyed by `Nat` (python `d[k] = v`,
unconditional last-writer-wins). -/
def assocSet {β : Type} : List (Nat × β) → Nat → β → List (Nat × β)
  | [], k, v => [(k, v)]
  | (k', v') :: rest, k, v =>
      if k' = k then (k, v) :: rest else (k', v') :: assocSet rest k v

/-- The persisted processing state: entity id to last forwarded message id. -/
abbrev CursorState := List (Nat × Nat)

/-- Embedding of `state.get(source_id, 0)` (line 359): default 0 if absent. -/
def CursorState.get (s : CursorState) (k : Nat) : Nat :=
  (assocLookup s k).getD 0

/-- Embedding of the cursor write `state[source_id] = message.id`
(line 372 in backfill, line 436 in the live handler): an unconditional
dict assignment. -/
def CursorState.set (s : CursorState) (k : Nat) (v : Nat) : CursorState :=
  assocSet s k v

/-- A sequence of cursor writes for the same entity, applied in order. -/
def apply_writes (s : CursorState) (k : Nat) : List Nat → CursorState
  | [] => s
  | i :: rest => apply_writes (CursorState.set s k i) k rest

/-- Outcome of a `client.forward_messages` call (an external collaborator):
success, a provider throttle signal carrying a mandated wait, or any other
error. In the source both error variants re-enter as python exceptions. -/
inductive ForwardOutcome
  | ok
  | throttled (retryAfter : Nat)
  | transientError
deriving DecidableEq, Repr

/-- Running state of one `backup_historical_messages` call: the in-memory
cursor dict, the forwarded-message counter `count`, the error counter
`self.stats.errors_count`, the ids forwarded so far in order, and the
sequence of states persisted by `save_state` (every 50 messages). -/
structure RunState where
  state : CursorState
  count : Nat
  errors : Nat
  forwarded : List Nat
  checkpoints : List CursorState
deriving DecidableEq, Repr

/-- The body of the backfill loop for one message (lines 369-385): filter,
forward, cursor write, periodic persistence; on a forward exception (either
error variant) count the error and continue. The rate-limit sleep (lines
380-381) is timing-only and does not change `RunState`. -/
def process_message (filters : FilterConfig) (outcome : MessageView → ForwardOutcome)
    (sourceId : Nat) (rs : RunState) (m : MessageView) : RunState :=
  if should_backup_message filters m then
    match outcome m with
    | ForwardOutcome.ok =>
        { state := CursorState.set rs.state sourceId m.id
          count := rs.count + 1
          errors := rs.errors
          forwarded := rs.forwarded ++ [m.id]
          checkpoints :=
            if (rs.count + 1) % 50 == 0 then
              rs.checkpoints ++ [CursorState.set rs.state sourceId m.id]
            else rs.checkpoints }
    | _ => { rs with errors := rs.errors + 1 }
  else rs

/-- The backfill loop over the iterated history (the `async for` of
lines 364-385), written as structural recursion (a left fold). -/
def run_backfill (filters : FilterConfig) (outcome : MessageView → ForwardOutcome)
    (sourceId : Nat) : RunState → List MessageView → RunState
  | rs, [] => rs
  | rs, m :: rest =>
      run_backfill filters outcome sourceId
        (process_message filters outcome sourceId rs m) rest

/-- Modelled from the spec: the platform client's history iterator
(telethon `iter_messages(entity, min_id=lastId, reverse=True)`, external to
this repository) yields exactly the messages with id strictly greater than
`minId`, preserving the order of `history`; when `history` is ascending the
yield is ascending (spec section 6, `iterateHistory(entity, afterId,
order=ascending)`). -/
def iter_messages (history : List MessageView) (minId : Nat) : List MessageView :=
  history.filter (fun m => decide (minId < m.id))

/-- Embedding of `backup_historical_messages` (lines 354-394): read the
persisted cursor (default 0), iterate history strictly after it, process
each message, and persist the final state (line 387). -/
def backup_historical_messages (filters : FilterConfig)
    (outcome : MessageView → ForwardOutcome) (history : List MessageView)
    (initState : CursorState) (sourceId : Nat) : RunState :=
  let lastId := CursorState.get initState sourceId
  let r := run_backfill filters outcome sourceId
    { state := initState, count := 0, errors := 0, forwarded := [], checkpoints := [] }
    (iter_messages history lastId)
  { r with checkpoints := r.checkpoints ++ [r.state] }

/-- The `BackupStats` dataclass (lines 81-90); the wall-clock fields
(`last_update`, `uptime_seconds`) carry no relay logic and are omitted. -/
structure BackupStats where
  total_routes : Nat := 0
  active_routes : Nat := 0
  processed_messages : Nat := 0
  last_message_id : Nat := 0
  errors_count : Nat := 0
deriving DecidableEq, Repr

/-- Embedding of python `max(values)` on a nonempty list (`max(state.values())`,
line 252); the empty case is unreachable behind the `if state:` guard. -/
def maxOfValues : List Nat → Nat
  | [] => 0
  | v :: vs => vs.foldl Nat.max v

/-- Embedding of `get_stats` (lines 242-257): `processed_messages` becomes
the number of entries of the persisted state, `total_routes` and
`active_routes` the sizes of the respective maps, and `last_message_id` the
maximum persisted cursor value when the state is nonempty (otherwise it is
left unchanged). -/
def get_stats (state : CursorState) (stats : BackupStats)
    (totalRoutes activeRoutes : Nat) : BackupStats :=
  { stats with
      processed_messages := state.length
      total_routes := totalRoutes
      active_routes := activeRoutes
      last_message_id :=
        if state.isEmpty then stats.last_message_id
        else maxOfValues (state.map Prod.snd) }

/-- A resolved platform entity; only its id is consumed by the relay core
(`source_entity.id`, line 407). -/
structure Entity where
  id : Nat
deriving DecidableEq, Repr

/-- Entity resolution (`resolve_entity`, lines 313-333): returns `none` when
the platform lookup fails (the source logs the error and returns `None`). -/
abbrev Resolver := String → Option Entity

/-- The resolved active-route map `self.active_routes`: resolved source id
to destination entity (a python dict). -/
abbrev RouteMap := List (Nat × Entity)

/-- The route-resolution loop of `start_real_time_backup` (lines 400-408):
a route enters the map only when both endpoints resolve; a failing route is
skipped and the loop continues with the remaining routes. -/
def resolve_routes (resolver : Resolver) : List (String × String) → RouteMap → RouteMap
  | [], acc => acc
  | (source, dest) :: rest, acc =>
      match resolver source, resolver dest with
      | some se, some de => resolve_routes resolver rest (assocSet acc se.id de)
      | _, _ => resolve_routes resolver rest acc

/-- The resolution phase of `start_real_time_backup` (lines 396-412): build
the active-route map from the configured routes; when it comes out empty the
engine warns and returns `False` (modelled as the first component). -/
def start_real_time_backup (resolver : Resolver)
    (routes : List (String × String)) : Bool × RouteMap :=
  let active := resolve_routes resolver routes []
  if active.isEmpty then (false, active) else (true, active)

/-- Embedding of the live handler `handle_new_message` (lines 420-444): an
event whose chat id is not a key of the active-route map is ignored;
otherwise filter, forward, and on success write and persist the cursor and
bump `processed_messages`; on a forward exception bump `errors_count`. -/
def handle_new_message (activeRoutes : RouteMap) (filters : FilterConfig)
    (outcome : MessageView → ForwardOutcome) (state : CursorState)
    (stats : BackupStats) (chatId : Nat) (m : MessageView) :
    CursorState × BackupStats :=
  match assocLookup activeRoutes chatId with
  | none => (state, stats)
  | some _ =>
      if should_backup_message filters m then
        match outcome m with
        | ForwardOutcome.ok =>
            (CursorState.set state chatId m.id,
             { stats with processed_messages := stats.processed_messages + 1 })
        | _ =>
            (state, { stats with errors_count := stats.errors_count + 1 })
      else (state, stats)

/-- Observable per-message steps of the two dispatch paths, used to compare
the backfill loop body with the live handler. -/
inductive Action
  | filterCheck (passed : Bool)
  | forwardMsg (id : Nat)
  | cursorWrite (chat id : Nat)
  | rateSleep
  | errorCount
deriving DecidableEq, Repr

/-- The per-message step sequence of the backfill loop body (lines 369-385):
filter, forward, cursor write, then the rate-limit sleep when
`rate_limit.enabled` holds; a forward exception yields an error count and
no cursor write. -/
def backfill_message_trace (filters : FilterConfig) (rateLimitEnabled : Bool)
    (outcome : MessageView → ForwardOutcome) (sourceId : Nat)
    (m : MessageView) : List Action :=
  if should_backup_message filters m then
    Action.filterCheck true ::
      (match outcome m with
       | ForwardOutcome.ok =>
           [Action.forwardMsg m.id, Action.cursorWrite sourceId m.id] ++
             (if rateLimitEnabled then [Action.rateSleep] else [])
       | _ => [Action.forwardMsg m.id, Action.errorCount])
  else [Action.filterCheck false]

/-- The per-message step sequence of the live handler for a monitored chat
(lines 427-444): filter, forward, cursor write; no rate-limit sleep occurs
on this path. -/
def live_message_trace (filters : FilterConfig)
    (outcome : MessageView → ForwardOutcome) (chatId : Nat)
    (m : MessageView) : List Action :=
  if should_backup_message filters m then
    Action.filterCheck true ::
      (match outcome m with
       | ForwardOutcome.ok =>
           [Action.forwardMsg m.id, Action.cursorWrite chatId m.id]
       | _ => [Action.forwardMsg m.id, Action.errorCount])
  else [Action.filterCheck false]

/-! Basic association-list lemmas. -/

lemma assocLookup_set_self {β : Type} (s : List (Nat × β)) (k : Nat) (v : β) :
    assocLookup (assocSet s k v) k = some v := by
  induction s with
  | nil => simp [assocSet, assocLookup]
  | cons hd tl ih =>
      obtain ⟨k', v'⟩ := hd
      by_cases h : k' = k
      · simp [assocSet, h, assocLookup]
      · simp [assocSet, h, assocLookup, ih]

lemma CursorState.get_set_self (s : CursorState) (k v : Nat) :
    CursorState.get (CursorState.set s k v) k = v := by
  simp [CursorState.get, CursorState.set, assocLookup_set_self]

/-! Claim theorems about the content filter. -/

/-- C1 counterexample: with every filter flag false, `should_backup_message`
does not return `false` on a plain text message — line 267 returns `True`
when `any(filters.values())` is falsy, so the all-false configuration
relays everything rather than nothing. -/
theorem allFalse_filter_counterexample :
    should_backup_message FilterConfig.allFalse
      { id := 1, action := false, media := none } ≠ false := by
  decide

/-- C1 amended: when every filter flag is false, `should_backup_message`
returns `true` for every non-service message (the filter allows everything);
service messages are still rejected by the earlier check. -/
theorem allFalse_filter_allows_everything (m : MessageView)
    (h : m.action = false) :
    should_backup_message FilterConfig.allFalse m = true := by
  simp [should_backup_message, h, FilterConfig.allFalse, FilterConfig.anyActive]

/-- C1 witness: the amended theorem applied to a concrete text message. -/
theorem allFalse_filter_allows_everything_witness :
    should_backup_message FilterConfig.allFalse
      { id := 1, action := false, media := none } = true :=
  allFalse_filter_allows_everything
    { id := 1, action := false, media := none } rfl

/-- C2 counterexample, two concrete inputs: a video message with
`videos = false` (but `photos = true`) is accepted — the matching flag is
false yet the message is relayed, because the `hasattr` probes of lines
276-281 are true on every telethon message and the concrete kind is never
consulted; and a photo message with `photos = false` is accepted when every
flag is false, because line 267 returns `True` first. -/
theorem media_flag_match_counterexample :
    (should_backup_message
        { media_only := false, photos := true, videos := false,
          documents := false, text_messages := false }
        { id := 2, action := false, media := some MediaKind.video } = true)
    ∧ should_backup_message FilterConfig.allFalse
        { id := 2, action := false, media := some MediaKind.photo } = true := by
  decide

/-- C2 amended: for every non-service media message, provided at least one
filter flag is true, `should_backup_message` returns `true` iff
`photos ∨ videos ∨ documents` is true. The message's concrete media kind is
never consulted (the `hasattr` probes of lines 276-281 hold on every
telethon message), so a photo with `photos = false` is still accepted when
`videos` or `documents` is true, and a media kind with no matching flag is
accepted, not rejected, whenever any of the three media flags is true. -/
theorem media_branch_ignores_kind (filters : FilterConfig) (m : MessageView)
    (k : MediaKind) (ha : m.action = false) (hm : m.media = some k)
    (hany : filters.anyActive = true) :
    should_backup_message filters m = true
      ↔ (filters.photos || filters.videos || filters.documents) = true := by
  obtain ⟨mid, mact, mmed⟩ := m
  simp only at ha hm
  subst ha; subst hm
  rcases filters with ⟨mo, ph, vi, dc, tx⟩
  cases k <;> cases mo <;> cases ph <;> cases vi <;> cases dc <;> cases tx <;>
    simp_all [should_backup_message, FilterConfig.anyActive,
      hasattr_photo, hasattr_video, hasattr_document]

/-- C2 witness: the amended theorem applied to a concrete video message
whose own flag is false but whose configuration has `photos = true`:
accepted. -/
theorem media_branch_ignores_kind_witness :
    should_backup_message
      { media_only := false, photos := true, videos := false,
        documents := false, text_messages := false }
      { id := 2, action := false, media := some MediaKind.video } = true :=
  (media_branch_ignores_kind
      { media_only := false, photos := true, videos := false,
        documents := false, text_messages := false }
      { id := 2, action := false, media := some MediaKind.video }
      MediaKind.video rfl rfl (by decide)).mpr (by decide)

/-- C8: a message whose service-action field is set is never relayed,
whatever the filter configuration (lines 262-264 reject it first). -/
theorem service_message_never_relayed (filters : FilterConfig)
    (m : MessageView) (h : m.action = true) :
    should_backup_message filters m = false := by
  simp [should_backup_message, h]

/-- C8 witness: the theorem applied to a concrete service message under a
configuration that would otherwise relay everything. -/
theorem service_message_never_relayed_witness :
    should_backup_message FilterConfig.defaults
      { id := 4, action := true, media := some MediaKind.photo } = false :=
  service_message_never_relayed FilterConfig.defaults
    { id := 4, action := true, media := some MediaKind.photo } rfl

/-- C9: the guarded filter (its try/except included) yields `true` exactly
when the try-block body evaluates without failure to `true`; hence an
evaluation failure makes it return `false` — a failure can suppress a relay
but never cause one, and the function never propagates the failure. -/
theorem filter_failure_suppresses (filters : FilterConfig)
    (m : MessageProbes) :
    should_backup_message_guarded filters m = true ↔
      should_backup_core filters m = Except.ok true := by
  unfold should_backup_message_guarded
  cases h : should_backup_core filters m with
  | ok b => cases b <;> simp
  | error e => simp

/-! Backfill lemmas. -/

/-- When every qualifying message forwards successfully, the run forwards
exactly the qualifying messages, in iteration order. -/
lemma run_backfill_forwarded_ok (filters : FilterConfig)
    (outcome : MessageView → ForwardOutcome) (sourceId : Nat)
    (msgs : List MessageView) :
    ∀ rs : RunState,
      (∀ m ∈ msgs, should_backup_message filters m = true →
        outcome m = ForwardOutcome.ok) →
      (run_backfill filters outcome sourceId rs msgs).forwarded
        = rs.forwarded ++
            ((msgs.filter (fun m => should_backup_message filters m)).map
              (fun m => m.id)) := by
  induction msgs with
  | nil => intro rs _; simp [run_backfill]
  | cons m rest ih =>
      intro rs hok
      have hrest : ∀ x ∈ rest, should_backup_message filters x = true →
          outcome x = ForwardOutcome.ok :=
        fun x hx => hok x (List.mem_cons_of_mem m hx)
      by_cases hs : should_backup_message filters m = true
      · have ho := hok m (List.mem_cons_self m rest) hs
        have step : run_backfill filters outcome sourceId rs (m :: rest)
            = run_backfill filters outcome sourceId
                (process_message filters outcome sourceId rs m) rest := rfl
        rw [step, ih _ hrest]
        simp [process_message, hs, ho, List.filter_cons]
      · have step : run_backfill filters outcome sourceId rs (m :: rest)
            = run_backfill filters outcome sourceId
                (process_message filters outcome sourceId rs m) rest := rfl
        rw [step, ih _ hrest]
        simp [process_message, hs, List.filter_cons]

/-- The cursor for the backfilled source never drops below its initial
value: the final in-memory state and every persisted checkpoint carry a
cursor at least the starting one, since the only writes store ids of
messages drawn from strictly above it. -/
lemma run_backfill_cursor_ge (filters : FilterConfig)
    (outcome : MessageView → ForwardOutcome) (sourceId : Nat) (C : Nat)
    (msgs : List MessageView) :
    ∀ rs : RunState,
      (∀ m ∈ msgs, C < m.id) →
      C ≤ CursorState.get rs.state sourceId →
      (∀ cp ∈ rs.checkpoints, C ≤ CursorState.get cp sourceId) →
      C ≤ CursorState.get
            (run_backfill filters outcome sourceId rs msgs).state sourceId
      ∧ ∀ cp ∈ (run_backfill filters outcome sourceId rs msgs).checkpoints,
          C ≤ CursorState.get cp sourceId := by
  induction msgs with
  | nil => intro rs _ h1 h2; exact ⟨h1, h2⟩
  | cons m rest ih =>
      intro rs hmem h1 h2
      have hm : C < m.id := hmem m (List.mem_cons_self m rest)
      have hrest : ∀ x ∈ rest, C < x.id :=
        fun x hx => hmem x (List.mem_cons_of_mem m hx)
      have key : C ≤ CursorState.get
            (process_message filters outcome sourceId rs m).state sourceId
          ∧ ∀ cp ∈ (process_message filters outcome sourceId rs m).checkpoints,
              C ≤ CursorState.get cp sourceId := by
        by_cases hs : should_backup_message filters m = true
        · cases ho : outcome m with
          | ok =>
              refine ⟨?_, ?_⟩
              · simp only [process_message, hs, ho, if_pos]
                rw [CursorState.get_set_self]
                omega
              · intro cp hcp
                simp only [process_message, hs, ho, if_pos] at hcp
                by_cases hc : ((rs.count + 1) % 50 == 0) = true
                · simp [hc] at hcp
                  rcases hcp with hcp | rfl
                  · exact h2 cp hcp
                  · rw [CursorState.get_set_self]; omega
                · simp [hc] at hcp
                  exact h2 cp hcp
          | throttled r => simpa [process_message, hs, ho] using ⟨h1, h2⟩
          | transientError => simpa [process_message, hs, ho] using ⟨h1, h2⟩
        · simpa [process_message, hs] using ⟨h1, h2⟩
      exact ih _ hrest key.1 key.2

/-- C3: with the persisted cursor C for the source, backfill forwards
exactly the qualifying messages of id strictly above C, in ascending id
order; every forwarded id exceeds C, and every state it persists (the
periodic checkpoints and the final save) carries a cursor at least C — so a
rerun after a restart, reading any persisted state, again starts at or
above C and never reprocesses an id at or below it. Hypotheses: the
platform yields history in ascending id order, and the qualifying forwards
succeed (failures are the subject of the error-handling claims). -/
theorem backfill_idempotent_resume (filters : FilterConfig)
    (outcome : MessageView → ForwardOutcome) (history : List MessageView)
    (initState : CursorState) (sourceId : Nat)
    (hsorted : history.Pairwise (fun a b => a.id < b.id))
    (hok : ∀ m ∈ iter_messages history (CursorState.get initState sourceId),
      should_backup_message filters m = true →
        outcome m = ForwardOutcome.ok) :
    (backup_historical_messages filters outcome history initState
        sourceId).forwarded
      = ((iter_messages history (CursorState.get initState sourceId)).filter
          (fun m => should_backup_message filters m)).map (fun m => m.id)
    ∧ (∀ i ∈ (backup_historical_messages filters outcome history initState
          sourceId).forwarded, CursorState.get initState sourceId < i)
    ∧ (backup_historical_messages filters outcome history initState
        sourceId).forwarded.Pairwise (fun a b => a < b)
    ∧ ∀ cp ∈ (backup_historical_messages filters outcome history initState
        sourceId).checkpoints,
        CursorState.get initState sourceId ≤ CursorState.get cp sourceId := by
  have hmem : ∀ m ∈ iter_messages history (CursorState.get initState sourceId),
      CursorState.get initState sourceId < m.id := by
    intro m hm
    have := (List.mem_filter.mp hm).2
    exact of_decide_eq_true this
  have hrun := run_backfill_forwarded_ok filters outcome sourceId
    (iter_messages history (CursorState.get initState sourceId))
    { state := initState, count := 0, errors := 0, forwarded := [],
      checkpoints := [] } hok
  have hcur := run_backfill_cursor_ge filters outcome sourceId
    (CursorState.get initState sourceId)
    (iter_messages history (CursorState.get initState sourceId))
    { state := initState, count := 0, errors := 0, forwarded := [],
      checkpoints := [] } hmem (le_refl _) (by intro cp hcp; simp at hcp)
  have hb : backup_historical_messages filters outcome history initState sourceId
      = { run_backfill filters outcome sourceId
            { state := initState, count := 0, errors := 0, forwarded := [],
              checkpoints := [] }
            (iter_messages history (CursorState.get initState sourceId)) with
          checkpoints :=
            (run_backfill filters outcome sourceId
              { state := initState, count := 0, errors := 0, forwarded := [],
                checkpoints := [] }
              (iter_messages history (CursorState.get initState sourceId))).checkpoints
            ++ [(run_backfill filters outcome sourceId
              { state := initState, count := 0, errors := 0, forwarded := [],
                checkpoints := [] }
              (iter_messages history (CursorState.get initState sourceId))).state] } :=
    rfl
  refine ⟨?_, ?_, ?_, ?_⟩
  · rw [hb]
    simpa using hrun
  · intro i hi
    rw [hb] at hi
    simp only [] at hi
    rw [hrun] at hi
    simp only [List.nil_append, List.mem_map] at hi
    obtain ⟨m, hmf, rfl⟩ := hi
    exact hmem m (List.mem_of_mem_filter hmf)
  · rw [hb]
    show ((run_backfill filters outcome sourceId _ _).forwarded).Pairwise _
    rw [hrun]
    simp only [List.nil_append]
    have hsub : List.Sublist
        ((iter_messages history (CursorState.get initState sourceId)).filter
          (fun m => should_backup_message filters m)) history :=
      (List.filter_sublist _).trans (List.filter_sublist _)
    have hp := hsorted.sublist hsub
    exact List.pairwise_map.mpr hp
  · intro cp hcp
    rw [hb] at hcp
    simp only [List.mem_append, List.mem_singleton] at hcp
    rcases hcp with hcp | rfl
    · exact hcur.2 cp hcp
    · exact hcur.1

/-- C3 witness: source 7 with persisted cursor 100 and history 101..105,
of which 103 is a document; under the default filter all five qualify (the
media branch accepts any media while `photos` is true, `documents = false`
notwithstanding), and the run forwards exactly 101..105 in order, all
strictly above the cursor. -/
theorem backfill_idempotent_resume_witness :
    (backup_historical_messages FilterConfig.defaults
        (fun _ => ForwardOutcome.ok)
        [{ id := 101, action := false, media := none },
         { id := 102, action := false, media := none },
         { id := 103, action := false, media := some MediaKind.document },
         { id := 104, action := false, media := none },
         { id := 105, action := false, media := none }]
        [(7, 100)] 7).forwarded = [101, 102, 103, 104, 105] := by
  have h := backfill_idempotent_resume FilterConfig.defaults
    (fun _ => ForwardOutcome.ok)
    [{ id := 101, action := false, media := none },
     { id := 102, action := false, media := none },
     { id := 103, action := false, media := some MediaKind.document },
     { id := 104, action := false, media := none },
     { id := 105, action := false, media := none }]
    [(7, 100)] 7 (by decide) (fun m _ _ => rfl)
  exact h.1.trans (by decide)

/-- C4 counterexample: the cursor write is a plain dict assignment, so
after committing id 100 and then id 50 for entity 7 the stored value is 50,
not the maximum 100 — a write with a smaller id is not a no-op. -/
theorem cursor_monotonic_counterexample :
    CursorState.get (apply_writes [] 7 [100, 50]) 7 = 50 ∧ (50 : Nat) < 100 := by
  decide

/-- C4 amended: the stored cursor equals the id of the last write for the
entity (last-writer-wins); a write with a smaller id overwrites the stored
value rather than being rejected or ignored. -/
theorem cursor_last_writer_wins (k : Nat) :
    ∀ (ids : List Nat) (s : CursorState) (i : Nat),
      ids.getLast? = some i →
      CursorState.get (apply_writes s k ids) k = i := by
  intro ids
  induction ids with
  | nil => intro s i h; simp at h
  | cons a rest ih =>
      intro s i h
      cases rest with
      | nil =>
          simp at h
          subst h
          simp [apply_writes, CursorState.get_set_self]
      | cons b t =>
          rw [List.getLast?_cons_cons] at h
          exact ih (CursorState.set s k a) i h

/-- C4 witness: the amended theorem applied to the write sequence 100, 50. -/
theorem cursor_last_writer_wins_witness :
    CursorState.get (apply_writes [] 7 [100, 50]) 7 = 50 :=
  cursor_last_writer_wins 7 [100, 50] [] 50 (by decide)

/-- C5 counterexample: a throttled forward (mandated wait 5) on the single
qualifying message of a run is counted in `errors_count`, the message is
not retried (nothing is forwarded), and the cursor never advances — lines
383-385 catch every forward exception alike. -/
theorem throttle_counted_counterexample :
    (backup_historical_messages FilterConfig.defaults
        (fun _ => ForwardOutcome.throttled 5)
        [{ id := 1, action := false, media := none }] [] 9).errors = 1
    ∧ (backup_historical_messages FilterConfig.defaults
        (fun _ => ForwardOutcome.throttled 5)
        [{ id := 1, action := false, media := none }] [] 9).forwarded = []
    ∧ (backup_historical_messages FilterConfig.defaults
        (fun _ => ForwardOutcome.throttled 5)
        [{ id := 1, action := false, media := none }] [] 9).state = [] := by
  decide

/-- C5 amended: a provider throttle error during a forward is handled like
any other forward error: `errors_count` is incremented and nothing else of
the run state changes — the message is not retried in this run, no
suspension for the mandated wait occurs, and the cursor does not advance to
the message; the loop continues with the next message. -/
theorem throttle_treated_as_error (filters : FilterConfig)
    (outcome : MessageView → ForwardOutcome) (sourceId : Nat) (rs : RunState)
    (m : MessageView) (r : Nat)
    (hs : should_backup_message filters m = true)
    (ho : outcome m = ForwardOutcome.throttled r) :
    process_message filters outcome sourceId rs m
      = { rs with errors := rs.errors + 1 } := by
  simp [process_message, hs, ho]

/-- C5 witness: the amended theorem applied to a concrete throttled step. -/
theorem throttle_treated_as_error_witness :
    process_message FilterConfig.defaults
      (fun _ => ForwardOutcome.throttled 5) 9
      { state := [], count := 0, errors := 0, forwarded := [],
        checkpoints := [] }
      { id := 1, action := false, media := none }
      = { state := [], count := 0, errors := 1, forwarded := [],
          checkpoints := [] } :=
  throttle_treated_as_error FilterConfig.defaults
    (fun _ => ForwardOutcome.throttled 5) 9
    { state := [], count := 0, errors := 0, forwarded := [],
      checkpoints := [] }
    { id := 1, action := false, media := none } 5 (by decide) rfl

/-- C6 counterexample: with rate limiting enabled, the per-message step
sequence of the backfill loop contains the rate-limit sleep while the live
handler's does not — the live path is not the same sequence as backfill's
(lines 379-381 have no counterpart after line 429). -/
theorem live_dispatch_counterexample :
    backfill_message_trace FilterConfig.defaults true
        (fun _ => ForwardOutcome.ok) 1
        { id := 10, action := false, media := none }
      ≠ live_message_trace FilterConfig.defaults
        (fun _ => ForwardOutcome.ok) 1
        { id := 10, action := false, media := none } := by
  decide

/-- C6 amended: an event whose chat id is not a key of the resolved
active-route map is ignored (state and stats unchanged, nothing forwarded);
an event for a monitored chat goes through the same ContentFilter → forward
→ cursor-update sequence as a backfill message, except that the live path
performs no rate-limit pause (it equals the backfill sequence with rate
limiting disabled). -/
theorem live_dispatch_matches_backfill :
    (∀ (activeRoutes : RouteMap) (filters : FilterConfig)
        (outcome : MessageView → ForwardOutcome) (state : CursorState)
        (stats : BackupStats) (chatId : Nat) (m : MessageView),
        assocLookup activeRoutes chatId = none →
        handle_new_message activeRoutes filters outcome state stats chatId m
          = (state, stats))
    ∧ ∀ (filters : FilterConfig) (outcome : MessageView → ForwardOutcome)
        (chatId : Nat) (m : MessageView),
        live_message_trace filters outcome chatId m
          = backfill_message_trace filters false outcome chatId m := by
  constructor
  · intro activeRoutes filters outcome state stats chatId m h
    simp [handle_new_message, h]
  · intro filters outcome chatId m
    by_cases hs : should_backup_message filters m = true
    · cases ho : outcome m <;>
        simp [live_message_trace, backfill_message_trace, hs, ho]
    · simp [live_message_trace, backfill_message_trace, hs]

/-- C6 witness: an event for an unmonitored chat (empty route map) leaves
state and stats untouched. -/
theorem live_dispatch_matches_backfill_witness :
    handle_new_message [] FilterConfig.defaults (fun _ => ForwardOutcome.ok)
      [] { total_routes := 0, active_routes := 0, processed_messages := 0,
           last_message_id := 0, errors_count := 0 } 3
      { id := 5, action := false, media := none }
      = ([], { total_routes := 0, active_routes := 0, processed_messages := 0,
               last_message_id := 0, errors_count := 0 }) :=
  live_dispatch_matches_backfill.1 [] FilterConfig.defaults
    (fun _ => ForwardOutcome.ok) []
    { total_routes := 0, active_routes := 0, processed_messages := 0,
      last_message_id := 0, errors_count := 0 } 3
    { id := 5, action := false, media := none } rfl

/-! Route-resolution lemmas. -/

lemma assocLookup_set_ne {β : Type} (s : List (Nat × β)) (k k' : Nat) (v : β)
    (h : k' ≠ k) : assocLookup (assocSet s k v) k' = assocLookup s k' := by
  induction s with
  | nil => simp [assocSet, assocLookup, Ne.symm h]
  | cons hd tl ih =>
      obtain ⟨a, b⟩ := hd
      by_cases ha : a = k
      · subst ha
        simp [assocSet, assocLookup, Ne.symm h]
      · by_cases ha' : a = k'
        · subst ha'
          simp [assocSet, ha, assocLookup]
        · simp [assocSet, ha, assocLookup, ha', ih]

/-- The resolved source ids of the routes that resolve on both endpoints,
in configuration order. -/
def resolvedIds (resolver : Resolver) : List (String × String) → List Nat
  | [] => []
  | (s, d) :: rest =>
      match resolver s, resolver d with
      | some se, some _ => se.id :: resolvedIds resolver rest
      | _, _ => resolvedIds resolver rest

/-- Processing further routes never disturbs a map key that none of them
resolves to. -/
lemma resolve_routes_preserve (resolver : Resolver) (k : Nat) :
    ∀ (routes : List (String × String)) (acc : RouteMap),
      k ∉ resolvedIds resolver routes →
      assocLookup (resolve_routes resolver routes acc) k = assocLookup acc k := by
  intro routes
  induction routes with
  | nil => intro acc _; rfl
  | cons hd rest ih =>
      obtain ⟨s0, d0⟩ := hd
      intro acc hk
      cases hrs : resolver s0 with
      | none =>
          have hk' : k ∉ resolvedIds resolver rest := by
            simpa [resolvedIds, hrs] using hk
          simpa [resolve_routes, hrs] using ih acc hk'
      | some se =>
          cases hrd : resolver d0 with
          | none =>
              have hk' : k ∉ resolvedIds resolver rest := by
                simpa [resolvedIds, hrs, hrd] using hk
              simpa [resolve_routes, hrs, hrd] using ih acc hk'
          | some de =>
              have hk2 : k ≠ se.id ∧ k ∉ resolvedIds resolver rest := by
                have : resolvedIds resolver ((s0, d0) :: rest)
                    = se.id :: resolvedIds resolver rest := by
                  simp [resolvedIds, hrs, hrd]
                rw [this] at hk
                simpa [List.mem_cons, not_or] using hk
              have step : resolve_routes resolver ((s0, d0) :: rest) acc
                  = resolve_routes resolver rest (assocSet acc se.id de) := by
                simp [resolve_routes, hrs, hrd]
              rw [step, ih _ hk2.2]
              exact assocLookup_set_ne acc se.id k de hk2.1

/-- Under distinct resolved source ids, every route that resolves on both
endpoints ends up in the active-route map, whatever else the list holds. -/
lemma resolve_routes_mem (resolver : Resolver) :
    ∀ (routes : List (String × String)) (acc : RouteMap),
      (resolvedIds resolver routes).Nodup →
      ∀ sou dest se de, (sou, dest) ∈ routes → resolver sou = some se →
        resolver dest = some de →
        assocLookup (resolve_routes resolver routes acc) se.id = some de := by
  intro routes
  induction routes with
  | nil => intro acc _ sou dest se de hmem; simp at hmem
  | cons hd rest ih =>
      obtain ⟨s0, d0⟩ := hd
      intro acc hnodup sou dest se de hmem hrs hrd
      rcases List.mem_cons.mp hmem with heq | hmem'
      · obtain ⟨h1, h2⟩ := Prod.mk.injEq .. ▸ heq
        subst h1; subst h2
        have hres : resolvedIds resolver ((sou, dest) :: rest)
            = se.id :: resolvedIds resolver rest := by
          simp [resolvedIds, hrs, hrd]
        rw [hres] at hnodup
        have hni : se.id ∉ resolvedIds resolver rest :=
          (List.nodup_cons.mp hnodup).1
        have step : resolve_routes resolver ((sou, dest) :: rest) acc
            = resolve_routes resolver rest (assocSet acc se.id de) := by
          simp [resolve_routes, hrs, hrd]
        rw [step, resolve_routes_preserve resolver se.id rest _ hni]
        exact assocLookup_set_self acc se.id de
      · cases hrs0 : resolver s0 with
        | none =>
            have step : resolve_routes resolver ((s0, d0) :: rest) acc
                = resolve_routes resolver rest acc := by
              simp [resolve_routes, hrs0]
            rw [step]
            refine ih acc ?_ sou dest se de hmem' hrs hrd
            simpa [resolvedIds, hrs0] using hnodup
        | some se0 =>
            cases hrd0 : resolver d0 with
            | none =>
                have step : resolve_routes resolver ((s0, d0) :: rest) acc
                    = resolve_routes resolver rest acc := by
                  simp [resolve_routes, hrs0, hrd0]
                rw [step]
                refine ih acc ?_ sou dest se de hmem' hrs hrd
                simpa [resolvedIds, hrs0, hrd0] using hnodup
            | some de0 =>
                have hres : resolvedIds resolver ((s0, d0) :: rest)
                    = se0.id :: resolvedIds resolver rest := by
                  simp [resolvedIds, hrs0, hrd0]
                rw [hres] at hnodup
                have step : resolve_routes resolver ((s0, d0) :: rest) acc
                    = resolve_routes resolver rest (assocSet acc se0.id de0) := by
                  simp [resolve_routes, hrs0, hrd0]
                rw [step]
                exact ih _ (List.nodup_cons.mp hnodup).2 sou dest se de
                  hmem' hrs hrd

/-- When every configured route fails resolution, the loop adds nothing. -/
lemma resolve_routes_all_fail (resolver : Resolver) :
    ∀ (routes : List (String × String)) (acc : RouteMap),
      (∀ sd ∈ routes, resolver sd.1 = none ∨ resolver sd.2 = none) →
      resolve_routes resolver routes acc = acc := by
  intro routes
  induction routes with
  | nil => intro acc _; rfl
  | cons hd rest ih =>
      obtain ⟨s0, d0⟩ := hd
      intro acc hall
      have hrest : ∀ sd ∈ rest, resolver sd.1 = none ∨ resolver sd.2 = none :=
        fun sd hsd => hall sd (List.mem_cons_of_mem _ hsd)
      rcases hall (s0, d0) (List.mem_cons_self _ _) with h | h
      · simpa [resolve_routes, h] using ih acc hrest
      · cases hrs0 : resolver s0 <;>
          simpa [resolve_routes, hrs0, h] using ih acc hrest

/-- C7: a route whose source or destination fails to resolve is dropped
without aborting resolution of the remaining routes — every route that does
resolve on both endpoints appears in the active-route map (stated under
distinct resolved source ids, the keying of the map) — and when every route
fails resolution the map is empty and the engine's start returns failure. -/
theorem route_resolution_isolation (resolver : Resolver)
    (routes : List (String × String))
    (hnodup : (resolvedIds resolver routes).Nodup) :
    (∀ sou dest se de, (sou, dest) ∈ routes → resolver sou = some se →
        resolver dest = some de →
        assocLookup (resolve_routes resolver routes []) se.id = some de)
    ∧ ((∀ sd ∈ routes, resolver sd.1 = none ∨ resolver sd.2 = none) →
        resolve_routes resolver routes [] = []
        ∧ (start_real_time_backup resolver routes).1 = false) := by
  constructor
  · exact resolve_routes_mem resolver routes [] hnodup
  · intro hall
    have h0 := resolve_routes_all_fail resolver routes [] hall
    exact ⟨h0, by simp [start_real_time_backup, h0]⟩

/-- C7 witness: a first route whose source fails to resolve does not stop
the second route from landing in the map. -/
theorem route_resolution_isolation_witness :
    assocLookup
      (resolve_routes
        (fun s => if s = "a" then some { id := 1 }
                  else if s = "c" then some { id := 2 } else none)
        [("bad", "c"), ("a", "c")] []) 1
      = some { id := 2 } :=
  (route_resolution_isolation
      (fun s => if s = "a" then some { id := 1 }
                else if s = "c" then some { id := 2 } else none)
      [("bad", "c"), ("a", "c")] (by decide)).1
    "a" "c" { id := 1 } { id := 2 } (by decide) rfl rfl

/-! Stats lemmas. -/

lemma foldl_max_bounds :
    ∀ (l : List Nat) (a : Nat),
      (l.foldl Nat.max a = a ∨ l.foldl Nat.max a ∈ l)
      ∧ a ≤ l.foldl Nat.max a
      ∧ ∀ x ∈ l, x ≤ l.foldl Nat.max a := by
  intro l
  induction l with
  | nil => intro a; simp
  | cons b t ih =>
      intro a
      have h := ih (Nat.max a b)
      refine ⟨?_, ?_, ?_⟩
      · rcases h.1 with h1 | h1
        · rcases Nat.le_total a b with h2 | h2
          · right; simp only [List.foldl_cons]
            have h3 : Nat.max a b = b := Nat.max_eq_right h2
            rw [h1, h3]
            exact List.mem_cons_self b t
          · left; simp only [List.foldl_cons]
            have h3 : Nat.max a b = a := Nat.max_eq_left h2
            rw [h1, h3]
        · right; exact List.mem_cons_of_mem b h1
      · calc a ≤ Nat.max a b := Nat.le_max_left a b
          _ ≤ t.foldl Nat.max (Nat.max a b) := h.2.1
      · intro x hx
        rcases List.mem_cons.mp hx with rfl | hx'
        · calc x ≤ Nat.max a x := Nat.le_max_right a x
            _ ≤ t.foldl Nat.max (Nat.max a x) := h.2.1
        · exact h.2.2 x hx'

lemma maxOfValues_bounds (l : List Nat) (h : l ≠ []) :
    maxOfValues l ∈ l ∧ ∀ x ∈ l, x ≤ maxOfValues l := by
  cases l with
  | nil => exact absurd rfl h
  | cons v vs =>
      have hb := foldl_max_bounds vs v
      refine ⟨?_, ?_⟩
      · rcases hb.1 with h1 | h1
        · rw [maxOfValues, h1]; exact List.mem_cons_self v vs
        · exact List.mem_cons_of_mem v (by rwa [maxOfValues])
      · intro x hx
        rcases List.mem_cons.mp hx with rfl | hx'
        · exact hb.2.1
        · exact hb.2.2 x hx'

/-- C10: `get_stats` sets `processed_messages` to the number of distinct
source entities of the persisted cursor state (its key count — not a count
of forwarded messages), and sets `last_message_id` to the maximum cursor
value across the sources when the state is nonempty, leaving it unchanged
when the state is empty. -/
theorem get_stats_spec (state : CursorState) (stats : BackupStats)
    (totalRoutes activeRoutes : Nat)
    (hkeys : (state.map Prod.fst).Nodup) :
    (get_stats state stats totalRoutes activeRoutes).processed_messages
      = (state.map Prod.fst).dedup.length
    ∧ (state = [] →
        (get_stats state stats totalRoutes activeRoutes).last_message_id
          = stats.last_message_id)
    ∧ (state ≠ [] →
        (get_stats state stats totalRoutes activeRoutes).last_message_id
            ∈ state.map Prod.snd
        ∧ ∀ v ∈ state.map Prod.snd,
            v ≤ (get_stats state stats totalRoutes activeRoutes).last_message_id) := by
  refine ⟨?_, ?_, ?_⟩
  · rw [hkeys.dedup]
    simp [get_stats]
  · intro h
    subst h
    simp [get_stats]
  · intro h
    have hne : state.map Prod.snd ≠ [] := by
      cases state
      · exact absurd rfl h
      · simp
    have hb := maxOfValues_bounds (state.map Prod.snd) hne
    have hlmi : (get_stats state stats totalRoutes activeRoutes).last_message_id
        = maxOfValues (state.map Prod.snd) := by
      have : state.isEmpty = false := by
        cases state
        · exact absurd rfl h
        · rfl
      simp [get_stats, this]
    rw [hlmi]
    exact hb

/-- C10 witness: two sources with cursors 10 and 5 give two processed
entities and a maximal last message id of 10. -/
theorem get_stats_spec_witness :
    (get_stats [(1, 10), (2, 5)]
        { total_routes := 0, active_routes := 0, processed_messages := 0,
          last_message_id := 0, errors_count := 0 } 3 1).processed_messages = 2
    ∧ (get_stats [(1, 10), (2, 5)]
        { total_routes := 0, active_routes := 0, processed_messages := 0,
          last_message_id := 0, errors_count := 0 } 3 1).last_message_id
        ∈ [(1, 10), (2, 5)].map Prod.snd := by
  have h := get_stats_spec [(1, 10), (2, 5)]
    { total_routes := 0, active_routes := 0, processed_messages := 0,
      last_message_id := 0, errors_count := 0 } 3 1 (by decide)
  exact ⟨h.1.trans (by decide), (h.2.2 (by decide)).1⟩

end TelegramBackup
